import Mathlib

/-!
Shallow embedding of the GeminiToolTrader repository.

The repository contains three variants of the same tool-driven
conversation loop between the Gemini model (the Capability Gateway) and a
set of Kraken-backed tool handlers (the Tool Registry):

* `src/unnamed/part_000` — the plain multi-turn loop: obtain function
  calls from Gemini, execute each registered handler, batch the results,
  send them back, repeat; exit when Gemini returns no calls.
* `src/unnamed/part_001` — the same loop with three timing layers:
  `withTimeout` around each tool dispatch (`FUNCTION_EXEC_TIMEOUT_MS`), a
  `delay(REQUEST_DELAY_MS)` at the end of every iteration, and a
  `Promise.race` master watchdog (`MASTER_TIMEOUT_MS`).
* `src/gemini-kraken-trader.js` — the single-request variant: one
  `sendMessage(prompt)`, then a local loop over the returned plan that
  executes each registered handler and discards its result; nothing is
  ever sent back to the model.

External collaborators (the Kraken client and the Gemini transport) are
modelled as an explicit environment `Env`: each Kraken method is a
function from its arguments to a pair of (settle duration in ms, result),
and the Gemini session is a script — the list of responses returned by
successive `sendMessage` calls.  The duration component is observable
only through `withTimeout` and the timed interpreter of part_001; the
untimed variants ignore it, exactly as the untimed source awaits the
promise regardless of how long it takes.
-/

namespace GeminiToolTrader

/-- JSON-ish argument object of a tool invocation, as an association
list from field name to (serialized) field value. -/
abbrev Args := List (String × String)

/-- A tool invocation request produced by the Gemini response
(`call.name`, `call.args`). -/
structure Call where
  name : String
  args : Args
deriving DecidableEq, Repr

/-- The `response` object pushed into `toolResponses`: the source builds
either `\x7b result: apiResult \x7d` or `\x7b error: message \x7d`, so we model a JS
object that may carry either field. -/
structure RespBody where
  result : Option String
  error : Option String
deriving DecidableEq, Repr

/-- One element of the `toolResponses` batch:
`\x7b functionName, response \x7d`. -/
structure ToolResponse where
  functionName : String
  response : RespBody
deriving DecidableEq, Repr

/-- One Gemini response: `result.response.functionCalls()` (empty list
when the model returned no calls) and `result.response.text()`. -/
structure GResp where
  calls : List Call
  text : String
deriving DecidableEq, Repr

/-- The external collaborators: the Kraken client methods used by the
registry, each returning (settle duration in ms, outcome), and the
latency `gdur i` of the i-th `chat.sendMessage` round trip. -/
structure Env where
  getHistory : Args → Nat × Except String String
  getAccounts : Nat × Except String String
  getOpenPositions : Nat × Except String String
  getOpenOrders : Nat × Except String String
  cancelOrder : Args → Nat × Except String String
  gdur : Nat → Nat

/-- part_001: delay between loop iterations. -/
def REQUEST_DELAY_MS : Nat := 1500

/-- part_001: max time for a single Kraken API call. -/
def FUNCTION_EXEC_TIMEOUT_MS : Nat := 10000

/-- part_001: max total runtime for the script. -/
def MASTER_TIMEOUT_MS : Nat := 180000

/-- JSON string escaping for one character (quote and backslash; other
characters pass through). -/
def escChar (c : Char) : String :=
  if c = '\"' then "\\\"" else if c = '\\' then "\\\\" else String.singleton c

/-- JSON string escaping, as performed by JSON.stringify on strings. -/
def jsonEscape (s : String) : String :=
  s.data.foldl (fun acc c => acc ++ escChar c) ""

/-- A JSON string literal. -/
def jsonStr (s : String) : String :=
  "\"" ++ jsonEscape s ++ "\""

/-- JSON.stringify of an argument object. -/
def stringifyArgs (a : Args) : String :=
  "\x7b" ++ String.intercalate "," (a.map (fun kv => jsonStr kv.1 ++ ":" ++ jsonStr kv.2)) ++ "\x7d"

/-- JSON.stringify of one `toolResponses` element. -/
def stringifyTR (tr : ToolResponse) : String :=
  "\x7b\"functionName\":" ++ jsonStr tr.functionName ++ ",\"response\":\x7b" ++
    (match tr.response.result, tr.response.error with
      | some v, none => "\"result\":" ++ jsonStr v
      | none, some e => "\"error\":" ++ jsonStr e
      | some v, some e => "\"result\":" ++ jsonStr v ++ ",\"error\":" ++ jsonStr e
      | none, none => "") ++ "\x7d\x7d"

/-- JSON.stringify of the whole `toolResponses` batch; in particular the
empty batch serializes to "[]". -/
def stringifyBatch (l : List ToolResponse) : String :=
  "[" ++ String.intercalate "," (l.map stringifyTR) ++ "]"

/-- The Tool Registry shared by part_000 and part_001 (six tools; the
trader variant has its own registry below).  Each handler delegates to
the corresponding Kraken client method of the environment; `hold`
resolves after `duration * 1000` ms with the literal string built in the
source. -/
def registry (env : Env) : String → Option (Args → Nat × Except String String)
  | "getHistoricPriceData" => some env.getHistory
  | "getAvailableMargin" => some (fun _ => env.getAccounts)
  | "getOpenPositions" => some (fun _ => env.getOpenPositions)
  | "getOpenOrders" => some (fun _ => env.getOpenOrders)
  | "cancelOrder" => some env.cancelOrder
  | "hold" => some (fun a =>
      let d := ((a.lookup "duration").bind String.toNat?).getD 0
      (d * 1000, Except.ok ("Held for " ++ toString d ++ " seconds.")))
  | _ => none

/-- part_001 `withTimeout(promise, timeout, toolName)`.  A promise is a
pair (settle tick, outcome).  If the operation settles strictly before
the timer fires its outcome passes through unchanged; otherwise the
timer rejects with the timeout message naming the tool and the bound. -/
def withTimeout (p : Nat × Except String String) (timeout : Nat) (toolName : String) :
    Except String String :=
  if p.1 < timeout then p.2
  else Except.error ("Tool \x27" ++ toolName ++ "\x27 timed out after " ++ toString timeout ++ "ms")

/-- What one turn of the part_001 loop accumulates: the `toolResponses`
batch, the console lines emitted, and the total time the sequential
awaits took. -/
structure TurnOut where
  batch : List ToolResponse
  logs : List String
  elapsed : Nat
deriving DecidableEq, Repr

/-- part_001 inner for-loop over `calls`: a registered tool is dispatched
under `withTimeout`; success pushes a `result` response, failure pushes
an `error` response prefixed "Execution failed: "; an unknown tool only
warns and pushes nothing. -/
def processTurnP1 (env : Env) : List Call → TurnOut
  | [] => ⟨[], [], 0⟩
  | c :: rest =>
    let o := processTurnP1 env rest
    match registry env c.name with
    | some h =>
      let p := h c.args
      let execLog := "Executing: " ++ c.name ++ "(" ++ stringifyArgs c.args ++ ")"
      let e := min p.1 FUNCTION_EXEC_TIMEOUT_MS
      match withTimeout p FUNCTION_EXEC_TIMEOUT_MS c.name with
      | Except.ok v =>
        ⟨⟨c.name, ⟨some v, none⟩⟩ :: o.batch, execLog :: o.logs, e + o.elapsed⟩
      | Except.error m =>
        ⟨⟨c.name, ⟨none, some ("Execution failed: " ++ m)⟩⟩ :: o.batch,
          execLog :: ("Error executing tool \x27" ++ c.name ++ "\x27: " ++ m) :: o.logs,
          e + o.elapsed⟩
    | none =>
      ⟨o.batch, ("Warning: Unknown tool \x27" ++ c.name ++ "\x27 requested by Gemini.") :: o.logs,
        o.elapsed⟩

/-- The outcome part_001 produces for a single registered call (the
element it pushes into `toolResponses`). -/
def outcomeP1 (env : Env) (c : Call) : ToolResponse :=
  match registry env c.name with
  | some h =>
    match withTimeout (h c.args) FUNCTION_EXEC_TIMEOUT_MS c.name with
    | Except.ok v => ⟨c.name, ⟨some v, none⟩⟩
    | Except.error m => ⟨c.name, ⟨none, some ("Execution failed: " ++ m)⟩⟩
  | none => ⟨c.name, ⟨none, none⟩⟩

/-- part_000 inner for-loop over `calls`: same shape as part_001 but with
no timeout guard and the raw `error.message` in the error response. -/
def processTurnP0 (env : Env) : List Call → List ToolResponse × List String
  | [] => ([], [])
  | c :: rest =>
    let o := processTurnP0 env rest
    match registry env c.name with
    | some h =>
      let execLog := "Executing: " ++ c.name ++ "(" ++ stringifyArgs c.args ++ ")"
      match (h c.args).2 with
      | Except.ok v => (⟨c.name, ⟨some v, none⟩⟩ :: o.1, execLog :: o.2)
      | Except.error m =>
        (⟨c.name, ⟨none, some m⟩⟩ :: o.1,
          execLog :: ("Error executing " ++ c.name ++ ":") :: o.2)
    | none =>
      (o.1, ("Warning: Unknown tool \x27" ++ c.name ++ "\x27 requested by Gemini.") :: o.2)

/-- The outcome part_000 pushes for a single registered call. -/
def outcomeP0 (env : Env) (c : Call) : ToolResponse :=
  match registry env c.name with
  | some h =>
    match (h c.args).2 with
    | Except.ok v => ⟨c.name, ⟨some v, none⟩⟩
    | Except.error m => ⟨c.name, ⟨none, some m⟩⟩
  | none => ⟨c.name, ⟨none, none⟩⟩

/-- What a run of the part_000 driver produces: the payload of each
`sendMessage(JSON.stringify(toolResponses))` performed (the initial
prompt send is the consumption of the first scripted response), and the
final text when the loop exits through its break (none when the scripted
gateway is exhausted mid-conversation). -/
structure RunOut where
  sends : List String
  finished : Option String
deriving DecidableEq, Repr

/-- part_000 `while (true)` loop body, driven by the current response
and the remaining script of gateway responses.  Empty `calls` breaks
with the response text; otherwise the batch is built, serialized and
sent, and the loop continues on the next scripted response. -/
def loopP0 (env : Env) : GResp → List GResp → RunOut
  | r, rest =>
    match r.calls with
    | [] => ⟨[], some r.text⟩
    | _ :: _ =>
      let payload := stringifyBatch (processTurnP0 env r.calls).1
      match rest with
      | [] => ⟨[payload], none⟩
      | r2 :: rest2 =>
        let o := loopP0 env r2 rest2
        ⟨payload :: o.sends, o.finished⟩

/-- part_000 main IIFE: send the prompt (consuming the first scripted
response) and enter the loop. -/
def runP0 (env : Env) (script : List GResp) : RunOut :=
  match script with
  | [] => ⟨[], none⟩
  | r :: rest => loopP0 env r rest

/-- An observable gateway-facing event of the part_001 driver:
a `chat.sendMessage` with its payload, or an `await delay(ms)`. -/
inductive Event where
  | send (payload : String)
  | delay (ms : Nat)
deriving DecidableEq, Repr

/-- part_001 prompt string. -/
def promptP1 : String :=
  "\n        You are an autonomous trading AI. Your goal is to grow the account balance.\n" ++
  "        1. Fetch historical price data for \x27PI_XBTUSD\x27 (60-minute interval).\n" ++
  "        2. Check available margin and any open positions or orders.\n" ++
  "        3. Analyze the data and explain your reasoning.\n" ++
  "        4. If any open orders seem unnecessary, cancel one.\n" ++
  "        5. Conclude by holding for 10 seconds and then provide a final summary.\n    "

/-- A timed run of part_001 `main()`: the gateway-facing events with the
tick (ms since start) at which each is initiated, the final text if the
loop broke, and the tick at which `main()` settles (none when the
scripted gateway is exhausted, i.e. a send never gets a response). -/
structure TRun where
  events : List (Nat × Event)
  finished : Option String
  settle : Option Nat
deriving DecidableEq, Repr

/-- part_001 `while (true)` loop body with explicit time.  `t` is the
tick at which the current response was just received (plus any delay
already served); `i` counts sendMessage round trips already started.
Processing the calls takes `(processTurnP1 env r.calls).elapsed` ms (each
await settles at its handler tick, capped by the `withTimeout` timer);
then the batch is sent, the response arrives `env.gdur i` later, and the
iteration ends with `delay REQUEST_DELAY_MS`. -/
def loopP1 (env : Env) : GResp → List GResp → Nat → Nat → TRun
  | r, rest, t, i =>
    match r.calls with
    | [] => ⟨[], some r.text, some t⟩
    | _ :: _ =>
      let turn := processTurnP1 env r.calls
      let tSend := t + turn.elapsed
      let payload := stringifyBatch turn.batch
      match rest with
      | [] => ⟨[(tSend, Event.send payload)], none, none⟩
      | r2 :: rest2 =>
        let tResp := tSend + env.gdur i
        let o := loopP1 env r2 rest2 (tResp + REQUEST_DELAY_MS) (i + 1)
        ⟨(tSend, Event.send payload) :: (tResp, Event.delay REQUEST_DELAY_MS) :: o.events,
          o.finished, o.settle⟩

/-- part_001 `main()`: the prompt is sent at tick 0, its response
arrives after `env.gdur 0`, then the loop runs. -/
def runP1 (env : Env) (script : List GResp) : TRun :=
  match script with
  | [] => ⟨[(0, Event.send promptP1)], none, none⟩
  | r :: rest =>
    let o := loopP1 env r rest (env.gdur 0) 1
    ⟨(0, Event.send promptP1) :: o.events, o.finished, o.settle⟩

/-- The rejection message of the part_001 master watchdog timer. -/
def masterMsg : String :=
  "Master script timeout reached after " ++ toString (MASTER_TIMEOUT_MS / 1000) ++ " seconds."

/-- The observable result of the raced part_001 script:
`Promise.race([main(), watchdog])` followed by `.catch(... process.exit(1))`.
`outcome` is `.ok` with main's resolution when main settles first, or
`.error masterMsg` when the watchdog fires first; `performed` is the list
of gateway events that actually happen before the process exits. -/
structure RacedOut where
  outcome : Except String (Option String)
  performed : List (Nat × Event)

/-- part_001 `Promise.race` of `main()` against the master watchdog.  If
main settles strictly before `MASTER_TIMEOUT_MS` its events all occur
and the race resolves with its value; otherwise the watchdog rejects at
the deadline, the catch handler calls `process.exit(1)`, and only the
events initiated strictly before the deadline are ever performed. -/
def masterRace (env : Env) (script : List GResp) : RacedOut :=
  let t := runP1 env script
  match t.settle with
  | some s =>
    if s < MASTER_TIMEOUT_MS then ⟨Except.ok t.finished, t.events⟩
    else ⟨Except.error masterMsg, t.events.filter (fun e => e.1 < MASTER_TIMEOUT_MS)⟩
  | none => ⟨Except.error masterMsg, t.events.filter (fun e => e.1 < MASTER_TIMEOUT_MS)⟩

/-- gemini-kraken-trader.js Tool Registry: the six Kraken-backed tools
plus `provideAnalysis`, whose handler logs a banner and the declared
`summary` argument and returns undefined (modelled as `none`).  Handlers
return (console lines they print, result); the Kraken-backed ones print
nothing themselves and map their value through `some`. -/
def registryTrader (env : Env) : String → Option (Args → List String × Except String (Option String))
  | "getHistoricPriceData" => some (fun a => ([], ((env.getHistory a).2).map some))
  | "getAvailableMargin" => some (fun _ => ([], (env.getAccounts.2).map some))
  | "getOpenPositions" => some (fun _ => ([], (env.getOpenPositions.2).map some))
  | "getOpenOrders" => some (fun _ => ([], (env.getOpenOrders.2).map some))
  | "cancelOrder" => some (fun a => ([], ((env.cancelOrder a).2).map some))
  | "hold" => some (fun a =>
      let d := ((a.lookup "duration").bind String.toNat?).getD 0
      (["Holding for " ++ toString d ++ " seconds..."],
        Except.ok (some ("Held for " ++ toString d ++ " seconds."))))
  | "provideAnalysis" => some (fun a =>
      (["--- Gemini\x27s Final Analysis ---", (a.lookup "summary").getD "undefined"],
        Except.ok none))
  | _ => none

/-- An observable event of the trader's local execution loop: a console
line, the dispatch of a registered handler (`await registry[name](args)`),
or the unknown-tool warning. -/
inductive TrEvent where
  | log (s : String)
  | exec (name : String)
  | warn (name : String)
deriving DecidableEq, Repr

/-- gemini-kraken-trader.js `for (const call of calls)` loop: every call
logs its "Executing step" line; a registered handler is dispatched (its
result unused) and its own console lines appear; a rejection escapes to
the enclosing try/catch, aborting the rest of the plan; an unknown tool
only warns and the loop continues. -/
def execPlan (env : Env) : List Call → List TrEvent × Except String Unit
  | [] => ([], Except.ok ())
  | c :: rest =>
    let stepLog := TrEvent.log ("Executing step: " ++ c.name ++ "(" ++ stringifyArgs c.args ++ ")")
    match registryTrader env c.name with
    | some h =>
      let hr := h c.args
      match hr.2 with
      | Except.ok _ =>
        let o := execPlan env rest
        (stepLog :: TrEvent.exec c.name :: (hr.1.map TrEvent.log ++ o.1), o.2)
      | Except.error m =>
        (stepLog :: TrEvent.exec c.name :: hr.1.map TrEvent.log, Except.error m)
    | none =>
      let o := execPlan env rest
      (stepLog :: TrEvent.warn c.name :: o.1, o.2)

/-- gemini-kraken-trader.js prompt string. -/
def promptTrader : String :=
  "\n        You are an autonomous trading analyst. Your task is to gather information about a trading account, analyze it, and provide a summary.\n" ++
  "        \n        **Execution Plan:**\n" ++
  "        1. First, call \x60getHistoricPriceData\x60 for the \x27PI_XBTUSD\x27 pair with a 60-minute interval.\n" ++
  "        2. Second, call \x60getAvailableMargin\x60.\n" ++
  "        3. Third, call \x60getOpenPositions\x60.\n" ++
  "        4. Finally, after planning the previous calls, call the \x60provideAnalysis\x60 function with a concise summary of the market and account status.\n" ++
  "        \n        You must schedule all of these function calls in a single response.\n    "

/-- What the trader script produces: the payloads of every
`chat.sendMessage` performed, the console events of the execution loop,
and the script's own completion (always `.ok` — the outer catch swallows
every error after logging it). -/
structure TraderOut where
  sends : List String
  events : List TrEvent
  result : Except String Unit
deriving Repr

/-- gemini-kraken-trader.js main IIFE: exactly one
`chat.sendMessage(prompt)`; an empty plan logs the text response;
otherwise the plan is executed locally and nothing further is sent.  A
rejection anywhere inside the try is caught and logged.  (A scripted
gateway with no response models a transport failure of the single send,
also caught.) -/
def traderRun (env : Env) (script : List GResp) : TraderOut :=
  match script with
  | [] =>
    ⟨[promptTrader],
      [TrEvent.log "--- A critical error occurred ---"], Except.ok ()⟩
  | r :: _ =>
    match r.calls with
    | [] =>
      ⟨[promptTrader],
        [TrEvent.log "Gemini did not return any function calls. It may have responded with text instead:",
          TrEvent.log r.text], Except.ok ()⟩
    | _ :: _ =>
      let o := execPlan env r.calls
      match o.2 with
      | Except.ok _ => ⟨[promptTrader], o.1, Except.ok ()⟩
      | Except.error m =>
        ⟨[promptTrader],
          o.1 ++ [TrEvent.log "--- A critical error occurred ---", TrEvent.log m],
          Except.ok ()⟩

/-- The sequence of handler dispatches in a trader event trace, in
order. -/
def execNames (evs : List TrEvent) : List String :=
  evs.filterMap (fun e => match e with | TrEvent.exec n => some n | _ => none)

/-- The turn-throttle discipline actually implemented by part_001: a
delay event never opens the trace and is always immediately preceded by
a gateway send (the throttle runs after the batch is sent back, never
before it). -/
def ThrottleFollowsSend (l : List Event) : Prop :=
  (∀ d, l.head? ≠ some (Event.delay d)) ∧
    l.Chain' (fun a b => (∃ d, b = Event.delay d) → ∃ p, a = Event.send p)

/-- A concrete environment in which every Kraken method settles quickly
and succeeds. -/
def env0 : Env where
  getHistory := fun _ => (5, Except.ok "hist")
  getAccounts := (3, Except.ok "accounts")
  getOpenPositions := (4, Except.ok "positions")
  getOpenOrders := (2, Except.ok "orders")
  cancelOrder := fun _ => (6, Except.ok "cancelled")
  gdur := fun _ => 100

/-- A concrete environment in which `getOpenOrders` rejects quickly. -/
def envF : Env where
  getHistory := fun _ => (5, Except.ok "hist")
  getAccounts := (3, Except.ok "accounts")
  getOpenPositions := (4, Except.ok "positions")
  getOpenOrders := (2, Except.error "boom")
  cancelOrder := fun _ => (6, Except.ok "cancelled")
  gdur := fun _ => 100

/-- A concrete environment in which the first Gemini round trip alone
takes 1 000 000 ms, far beyond the master deadline. -/
def envW : Env :=
  { env0 with gdur := fun _ => 1000000 }

/-- A turn requesting three registered tools in a fixed order. -/
def callsABC : List Call :=
  [⟨"getAvailableMargin", []⟩, ⟨"getOpenPositions", []⟩, ⟨"getOpenOrders", []⟩]

/-- A completion-tool invocation carrying the summary "Done". -/
def pa : Call := ⟨"provideAnalysis", [("summary", "Done")]⟩

/-- An invocation placed after `pa` in the same turn. -/
def afterCall : Call := ⟨"getOpenOrders", []⟩

/-- A one-call turn. -/
def callsA : List Call := [⟨"getAvailableMargin", []⟩]

/-- A two-turn part_001 script: one tool turn, then a text reply. -/
def script7 : List GResp := [⟨callsA, ""⟩, ⟨[], "done"⟩]

/-- The gateway-facing events of `script7` under `env0`, without
ticks. -/
def evs7 : List Event := ((runP1 env0 script7).events).map Prod.snd

/-- The serialized batch sent back in the first turn of `script7`. -/
def payload7 : String := stringifyBatch (processTurnP1 env0 callsA).batch

/-- A script that never produces calls under `envW` (the response text
arrives only after the huge gateway latency). -/
def scriptW : List GResp := [⟨[], "done"⟩]

/-- The four-step plan of the trader prompt. -/
def callsT : List Call :=
  [⟨"getHistoricPriceData", [("pair", "PI_XBTUSD"), ("interval", "60")]⟩,
    ⟨"getAvailableMargin", []⟩, ⟨"getOpenPositions", []⟩, pa]

/-! ### Structural lemmas about the turn loops -/

theorem p1_batch_cons_reg (env : Env) (c : Call) (rest : List Call) (f : Args → Nat × Except String String)
    (hreg : registry env c.name = some f) :
    (processTurnP1 env (c :: rest)).batch = outcomeP1 env c :: (processTurnP1 env rest).batch := by
  simp only [processTurnP1, outcomeP1, hreg]
  cases hw : withTimeout (f c.args) FUNCTION_EXEC_TIMEOUT_MS c.name <;> simp [hw]

theorem p1_batch_cons_unreg (env : Env) (c : Call) (rest : List Call)
    (hreg : registry env c.name = none) :
    (processTurnP1 env (c :: rest)).batch = (processTurnP1 env rest).batch := by
  simp only [processTurnP1, hreg]

theorem p1_logs_cons_unreg (env : Env) (c : Call) (rest : List Call)
    (hreg : registry env c.name = none) :
    (processTurnP1 env (c :: rest)).logs =
      ("Warning: Unknown tool \x27" ++ c.name ++ "\x27 requested by Gemini.") ::
        (processTurnP1 env rest).logs := by
  simp only [processTurnP1, hreg]

theorem p1_batch_append (env : Env) (xs ys : List Call) :
    (processTurnP1 env (xs ++ ys)).batch =
      (processTurnP1 env xs).batch ++ (processTurnP1 env ys).batch := by
  induction xs with
  | nil => simp [processTurnP1]
  | cons c rest ih =>
    simp only [List.cons_append, processTurnP1]
    cases hreg : registry env c.name with
    | none => simpa using ih
    | some f =>
      cases hw : withTimeout (f c.args) FUNCTION_EXEC_TIMEOUT_MS c.name <;> simp [hw, ih]

theorem p1_logs_append (env : Env) (xs ys : List Call) :
    (processTurnP1 env (xs ++ ys)).logs =
      (processTurnP1 env xs).logs ++ (processTurnP1 env ys).logs := by
  induction xs with
  | nil => simp [processTurnP1]
  | cons c rest ih =>
    simp only [List.cons_append, processTurnP1]
    cases hreg : registry env c.name with
    | none => simpa using ih
    | some f =>
      cases hw : withTimeout (f c.args) FUNCTION_EXEC_TIMEOUT_MS c.name <;> simp [hw, ih]

theorem p1_batch_names_registered (env : Env) (cs : List Call) :
    ∀ tr ∈ (processTurnP1 env cs).batch, (registry env tr.functionName).isSome := by
  induction cs with
  | nil => simp [processTurnP1]
  | cons c rest ih =>
    intro tr htr
    cases hreg : registry env c.name with
    | none =>
      rw [p1_batch_cons_unreg env c rest hreg] at htr
      exact ih tr htr
    | some f =>
      rw [p1_batch_cons_reg env c rest f hreg] at htr
      rcases List.mem_cons.mp htr with rfl | htr
      · have hname : (outcomeP1 env c).functionName = c.name := by
          simp only [outcomeP1, hreg]
          cases hw : withTimeout (f c.args) FUNCTION_EXEC_TIMEOUT_MS c.name <;> simp [hw]
        rw [hname, hreg]; rfl
      · exact ih tr htr

theorem p0_batch_cons_reg (env : Env) (c : Call) (rest : List Call) (f : Args → Nat × Except String String)
    (hreg : registry env c.name = some f) :
    (processTurnP0 env (c :: rest)).1 = outcomeP0 env c :: (processTurnP0 env rest).1 := by
  simp only [processTurnP0, outcomeP0, hreg]
  cases hw : (f c.args).2 <;> simp [hw]

theorem p0_batch_cons_unreg (env : Env) (c : Call) (rest : List Call)
    (hreg : registry env c.name = none) :
    (processTurnP0 env (c :: rest)).1 = (processTurnP0 env rest).1 := by
  simp only [processTurnP0, hreg]

theorem p0_batch_append (env : Env) (xs ys : List Call) :
    (processTurnP0 env (xs ++ ys)).1 =
      (processTurnP0 env xs).1 ++ (processTurnP0 env ys).1 := by
  induction xs with
  | nil => simp [processTurnP0]
  | cons c rest ih =>
    simp only [List.cons_append, processTurnP0]
    cases hreg : registry env c.name with
    | none => simpa using ih
    | some f =>
      cases hw : (f c.args).2 <;> simp [hw, ih]

theorem p0_batch_names_registered (env : Env) (cs : List Call) :
    ∀ tr ∈ (processTurnP0 env cs).1, (registry env tr.functionName).isSome := by
  induction cs with
  | nil => simp [processTurnP0]
  | cons c rest ih =>
    intro tr htr
    cases hreg : registry env c.name with
    | none =>
      rw [p0_batch_cons_unreg env c rest hreg] at htr
      exact ih tr htr
    | some f =>
      rw [p0_batch_cons_reg env c rest f hreg] at htr
      rcases List.mem_cons.mp htr with rfl | htr
      · have hname : (outcomeP0 env c).functionName = c.name := by
          simp only [outcomeP0, hreg]
          cases hw : (f c.args).2 <;> simp [hw]
        rw [hname, hreg]; rfl
      · exact ih tr htr

theorem p0_batch_all_unknown (env : Env) (cs : List Call)
    (hunk : ∀ c ∈ cs, registry env c.name = none) :
    (processTurnP0 env cs).1 = [] := by
  induction cs with
  | nil => rfl
  | cons c rest ih =>
    rw [p0_batch_cons_unreg env c rest (hunk c (by simp))]
    exact ih (fun x hx => hunk x (by simp [hx]))

theorem p1_exactly_one (env : Env) (cs : List Call) :
    ∀ tr ∈ (processTurnP1 env cs).batch,
      (tr.response.result.isSome ∧ tr.response.error = none) ∨
        (tr.response.result = none ∧ tr.response.error.isSome) := by
  induction cs with
  | nil => simp [processTurnP1]
  | cons c rest ih =>
    intro tr htr
    cases hreg : registry env c.name with
    | none =>
      rw [p1_batch_cons_unreg env c rest hreg] at htr
      exact ih tr htr
    | some f =>
      rw [p1_batch_cons_reg env c rest f hreg] at htr
      rcases List.mem_cons.mp htr with rfl | htr
      · simp only [outcomeP1, hreg]
        cases hw : withTimeout (f c.args) FUNCTION_EXEC_TIMEOUT_MS c.name <;> simp [hw]
      · exact ih tr htr

theorem p0_exactly_one (env : Env) (cs : List Call) :
    ∀ tr ∈ (processTurnP0 env cs).1,
      (tr.response.result.isSome ∧ tr.response.error = none) ∨
        (tr.response.result = none ∧ tr.response.error.isSome) := by
  induction cs with
  | nil => simp [processTurnP0]
  | cons c rest ih =>
    intro tr htr
    cases hreg : registry env c.name with
    | none =>
      rw [p0_batch_cons_unreg env c rest hreg] at htr
      exact ih tr htr
    | some f =>
      rw [p0_batch_cons_reg env c rest f hreg] at htr
      rcases List.mem_cons.mp htr with rfl | htr
      · simp only [outcomeP0, hreg]
        cases hw : (f c.args).2 <;> simp [hw]
      · exact ih tr htr

/-! ### Structural lemmas about the trader plan loop -/

theorem execPlan_append (env : Env) (xs ys : List Call)
    (hxs : (execPlan env xs).2 = Except.ok ()) :
    execPlan env (xs ++ ys) =
      ((execPlan env xs).1 ++ (execPlan env ys).1, (execPlan env ys).2) := by
  induction xs with
  | nil => simp [execPlan]
  | cons c rest ih =>
    simp only [List.cons_append, execPlan]
    cases hreg : registryTrader env c.name with
    | none =>
      have hrest : (execPlan env rest).2 = Except.ok () := by
        simpa [execPlan, hreg] using hxs
      simp [ih hrest]
    | some h =>
      cases hw : (h c.args).2 with
      | ok v =>
        have hrest : (execPlan env rest).2 = Except.ok () := by
          simpa [execPlan, hreg, hw] using hxs
        simp [hw, ih hrest]
      | error m =>
        exfalso
        simp [execPlan, hreg, hw] at hxs

theorem execPlan_all_ok (env : Env) (cs : List Call)
    (hok : ∀ c ∈ cs, ∃ h v, registryTrader env c.name = some h ∧ (h c.args).2 = Except.ok v) :
    execNames (execPlan env cs).1 = cs.map Call.name ∧
      (execPlan env cs).2 = Except.ok () := by
  induction cs with
  | nil => simp [execPlan, execNames]
  | cons c rest ih =>
    obtain ⟨h, v, hreg, hw⟩ := hok c (by simp)
    have ⟨ih1, ih2⟩ := ih (fun x hx => hok x (by simp [hx]))
    constructor
    · simp only [execPlan, hreg, hw, execNames, List.filterMap_cons, List.filterMap_append]
      simp only [execNames] at ih1
      simp [List.filterMap_map, ih1]
    · simp [execPlan, hreg, hw, ih2]

/-! ### The shape of the part_001 event trace -/

theorem loopP1_shape (env : Env) (rest : List GResp) :
    ∀ (r : GResp) (t i : Nat),
      (∀ d, ((loopP1 env r rest t i).events.map Prod.snd).head? ≠ some (Event.delay d)) ∧
        ((loopP1 env r rest t i).events.map Prod.snd).Chain'
          (fun a b => (∃ d, b = Event.delay d) → ∃ p, a = Event.send p) := by
  induction rest with
  | nil =>
    intro r t i
    cases hc : r.calls with
    | nil => simp [loopP1, hc]
    | cons c cs => simp [loopP1, hc]
  | cons r2 rest2 ih =>
    intro r t i
    cases hc : r.calls with
    | nil =>
      rw [loopP1, hc]
      simp
    | cons c cs =>
      have ⟨ih1, ih2⟩ := ih r2 (t + (processTurnP1 env r.calls).elapsed + env.gdur i + REQUEST_DELAY_MS) (i + 1)
      constructor
      · intro d
        rw [loopP1, hc]
        simp
      · rw [loopP1, hc]
        simp only [List.map_cons]
        rw [List.chain'_cons]
        refine ⟨fun _ => ⟨_, rfl⟩, ?_⟩
        cases he : (loopP1 env r2 rest2 (t + (processTurnP1 env (c :: cs)).elapsed + env.gdur i + REQUEST_DELAY_MS) (i + 1)).events.map Prod.snd with
        | nil => simp
        | cons e es =>
          rw [List.chain'_cons]
          constructor
          · intro hd
            exfalso
            obtain ⟨d, rfl⟩ := hd
            have := ih1 d
            rw [hc] at this
            simp [he] at this
          · have := ih2
            rw [hc] at this
            rw [he] at this
            exact this

/-! ### Claim theorems -/

/-- C4: `withTimeout` behaves as a race.  If the timer fires before the
operation settles, the result is a rejection whose message names the
tool and the configured bound in milliseconds; if the operation settles
first, its outcome (success or failure) passes through unchanged.  The
environment is arbitrary, so this holds for every settle time and every
operation outcome. -/
theorem c4_withTimeout_race (p : Nat × Except String String) (timeout : Nat) (toolName : String) :
    (timeout < p.1 →
      ∃ m, withTimeout p timeout toolName = Except.error m ∧
        (∃ q r, m = q ++ toolName ++ r) ∧
        (∃ u w, m = u ++ toString timeout ++ "ms" ++ w)) ∧
    (p.1 < timeout → withTimeout p timeout toolName = p.2) := by
  constructor
  · intro h
    refine ⟨"Tool \x27" ++ toolName ++ "\x27 timed out after " ++ toString timeout ++ "ms",
      ?_, ⟨"Tool \x27", "\x27 timed out after " ++ toString timeout ++ "ms", ?_⟩,
      ⟨"Tool \x27" ++ toolName ++ "\x27 timed out after ", "", ?_⟩⟩
    · unfold withTimeout
      rw [if_neg (by omega)]
    · simp [String.append_assoc]
    · simp [String.append_assoc]
  · intro h
    unfold withTimeout
    rw [if_pos h]

/-- Witness for C4: a 10000 ms guard around an operation settling at
20000 ms yields the timeout rejection; around an operation settling at
5 ms it passes the outcome through. -/
theorem c4_witness :
    (∃ m, withTimeout (20000, Except.ok "v") 10000 "getOpenOrders" = Except.error m ∧
      (∃ q r, m = q ++ "getOpenOrders" ++ r) ∧
      (∃ u w, m = u ++ toString 10000 ++ "ms" ++ w)) ∧
    withTimeout (5, Except.ok "v") 10000 "getOpenOrders" = Except.ok "v" :=
  ⟨(c4_withTimeout_race (20000, Except.ok "v") 10000 "getOpenOrders").1 (by omega),
    (c4_withTimeout_race (5, Except.ok "v") 10000 "getOpenOrders").2 (by omega)⟩

/-- C2: when every requested tool of a turn is registered, the outcome
batch is exactly the per-call outcomes in request order, in both the
part_001 and the part_000 loop.  The environment — and with it every
handler's settle time — is arbitrary, so the order never depends on when
the handlers settle. -/
theorem c2_batch_preserves_order (env : Env) (cs : List Call)
    (h : ∀ c ∈ cs, (registry env c.name).isSome) :
    (processTurnP1 env cs).batch = cs.map (outcomeP1 env) ∧
    (processTurnP0 env cs).1 = cs.map (outcomeP0 env) := by
  induction cs with
  | nil => exact ⟨rfl, rfl⟩
  | cons c rest ih =>
    obtain ⟨f, hf⟩ := Option.isSome_iff_exists.mp (h c (by simp))
    have ⟨ih1, ih2⟩ := ih (fun x hx => h x (by simp [hx]))
    refine ⟨?_, ?_⟩
    · rw [p1_batch_cons_reg env c rest f hf, ih1, List.map_cons]
    · rw [p0_batch_cons_reg env c rest f hf, ih2, List.map_cons]

/-- Witness for C2 at the three-call turn
[getAvailableMargin, getOpenPositions, getOpenOrders]. -/
theorem c2_witness :
    (processTurnP1 env0 callsABC).batch = callsABC.map (outcomeP1 env0) ∧
    (processTurnP0 env0 callsABC).1 = callsABC.map (outcomeP0 env0) :=
  c2_batch_preserves_order env0 callsABC (by decide)

/-- C8: every element of an outcome batch carries exactly one of the
`result` / `error` fields — never both and never neither — in both loop
variants, for every turn and every environment. -/
theorem c8_exactly_one_field (env : Env) (cs : List Call) (tr : ToolResponse)
    (h : tr ∈ (processTurnP1 env cs).batch ∨ tr ∈ (processTurnP0 env cs).1) :
    (tr.response.result.isSome ∧ tr.response.error = none) ∨
    (tr.response.result = none ∧ tr.response.error.isSome) := by
  rcases h with h | h
  · exact p1_exactly_one env cs tr h
  · exact p0_exactly_one env cs tr h

/-- Witness for C8: the successful getAvailableMargin outcome of a
concrete one-call turn carries `result` and not `error`. -/
theorem c8_witness :
    (ToolResponse.mk "getAvailableMargin" ⟨some "accounts", none⟩).response.result.isSome ∧
      (ToolResponse.mk "getAvailableMargin" ⟨some "accounts", none⟩).response.error = none ∨
    (ToolResponse.mk "getAvailableMargin" ⟨some "accounts", none⟩).response.result = none ∧
      (ToolResponse.mk "getAvailableMargin" ⟨some "accounts", none⟩).response.error.isSome :=
  c8_exactly_one_field env0 [⟨"getAvailableMargin", []⟩]
    ⟨"getAvailableMargin", ⟨some "accounts", none⟩⟩ (Or.inl (by decide))

/-- C3: a registered handler that rejects during dispatch (settling
within the part_001 guard bound) does not terminate the driver and is
not propagated: its failure is captured as an outcome whose error field
contains the handler's message (verbatim in part_000, prefixed with
"Execution failed: " in part_001), that outcome is part of the turn's
batch, and the part_000 run sends the batch and continues with the
remaining script — the final result is whatever the rest of the
conversation produces. -/
theorem c3_handler_failure_recoverable (env : Env) (c : Call)
    (f : Args → Nat × Except String String) (m : String) (d : Nat)
    (pre post : List Call) (txt : String) (rest : List GResp)
    (hreg : registry env c.name = some f)
    (hfail : f c.args = (d, Except.error m))
    (hdur : d < FUNCTION_EXEC_TIMEOUT_MS) :
    outcomeP1 env c = ⟨c.name, ⟨none, some ("Execution failed: " ++ m)⟩⟩ ∧
    outcomeP0 env c = ⟨c.name, ⟨none, some m⟩⟩ ∧
    outcomeP1 env c ∈ (processTurnP1 env (pre ++ c :: post)).batch ∧
    outcomeP0 env c ∈ (processTurnP0 env (pre ++ c :: post)).1 ∧
    runP0 env (⟨pre ++ c :: post, txt⟩ :: rest) =
      ⟨stringifyBatch (processTurnP0 env (pre ++ c :: post)).1 :: (runP0 env rest).sends,
        (runP0 env rest).finished⟩ := by
  have hw : withTimeout (f c.args) FUNCTION_EXEC_TIMEOUT_MS c.name = Except.error m := by
    rw [hfail]
    unfold withTimeout
    rw [if_pos (by simpa using hdur)]
  have h1 : outcomeP1 env c = ⟨c.name, ⟨none, some ("Execution failed: " ++ m)⟩⟩ := by
    simp [outcomeP1, hreg, hw]
  have h0 : outcomeP0 env c = ⟨c.name, ⟨none, some m⟩⟩ := by
    simp [outcomeP0, hreg, hfail]
  refine ⟨h1, h0, ?_, ?_, ?_⟩
  · rw [p1_batch_append, p1_batch_cons_reg env c post f hreg]
    simp
  · rw [p0_batch_append, p0_batch_cons_reg env c post f hreg]
    simp
  · show loopP0 env ⟨pre ++ c :: post, txt⟩ rest = _
    rw [loopP0]
    have hne : pre ++ c :: post ≠ [] := by simp
    cases hcs : pre ++ c :: post with
    | nil => exact absurd hcs hne
    | cons x xs =>
      cases rest with
      | nil => simp [runP0, ← hcs]
      | cons r2 rest2 => simp [runP0, ← hcs]

/-- Witness for C3: `getOpenOrders` rejecting with "boom" after 2 ms in
a one-call turn followed by an empty script. -/
theorem c3_witness :
    outcomeP1 envF ⟨"getOpenOrders", []⟩ =
      ⟨"getOpenOrders", ⟨none, some ("Execution failed: " ++ "boom")⟩⟩ ∧
    outcomeP0 envF ⟨"getOpenOrders", []⟩ = ⟨"getOpenOrders", ⟨none, some "boom"⟩⟩ ∧
    outcomeP1 envF ⟨"getOpenOrders", []⟩ ∈
      (processTurnP1 envF ([] ++ ⟨"getOpenOrders", []⟩ :: [])).batch ∧
    outcomeP0 envF ⟨"getOpenOrders", []⟩ ∈
      (processTurnP0 envF ([] ++ ⟨"getOpenOrders", []⟩ :: [])).1 ∧
    runP0 envF (⟨[] ++ ⟨"getOpenOrders", []⟩ :: [], ""⟩ :: []) =
      ⟨stringifyBatch (processTurnP0 envF ([] ++ ⟨"getOpenOrders", []⟩ :: [])).1 ::
          (runP0 envF []).sends, (runP0 envF []).finished⟩ :=
  c3_handler_failure_recoverable envF ⟨"getOpenOrders", []⟩
    (fun _ => envF.getOpenOrders) "boom" 2 [] [] "" [] rfl rfl (by decide)

/-- C5: an invocation whose name is not registered is skipped with only
a warning line: no outcome for that name appears anywhere in the turn's
batch (in either loop variant), and the remaining invocations of the
turn produce exactly the batch they would have produced without it. -/
theorem c5_unknown_tool_skipped (env : Env) (c : Call) (pre post : List Call)
    (hreg : registry env c.name = none) :
    (processTurnP1 env (pre ++ c :: post)).batch = (processTurnP1 env (pre ++ post)).batch ∧
    (processTurnP0 env (pre ++ c :: post)).1 = (processTurnP0 env (pre ++ post)).1 ∧
    ("Warning: Unknown tool \x27" ++ c.name ++ "\x27 requested by Gemini.") ∈
      (processTurnP1 env (pre ++ c :: post)).logs ∧
    (∀ tr ∈ (processTurnP1 env (pre ++ c :: post)).batch, tr.functionName ≠ c.name) ∧
    (∀ tr ∈ (processTurnP0 env (pre ++ c :: post)).1, tr.functionName ≠ c.name) := by
  refine ⟨?_, ?_, ?_, ?_, ?_⟩
  · rw [p1_batch_append, p1_batch_cons_unreg env c post hreg, p1_batch_append]
  · rw [p0_batch_append, p0_batch_cons_unreg env c post hreg, p0_batch_append]
  · rw [p1_logs_append, p1_logs_cons_unreg env c post hreg]
    simp
  · intro tr htr heq
    have := p1_batch_names_registered env (pre ++ c :: post) tr htr
    rw [heq, hreg] at this
    exact absurd this (by simp)
  · intro tr htr heq
    have := p0_batch_names_registered env (pre ++ c :: post) tr htr
    rw [heq, hreg] at this
    exact absurd this (by simp)

/-- Witness for C5: the unknown tool "placeOrder" between two registered
calls under `env0`. -/
theorem c5_witness :
    (processTurnP1 env0 ([⟨"getAvailableMargin", []⟩] ++ ⟨"placeOrder", []⟩ :: [afterCall])).batch =
      (processTurnP1 env0 ([⟨"getAvailableMargin", []⟩] ++ [afterCall])).batch ∧
    (processTurnP0 env0 ([⟨"getAvailableMargin", []⟩] ++ ⟨"placeOrder", []⟩ :: [afterCall])).1 =
      (processTurnP0 env0 ([⟨"getAvailableMargin", []⟩] ++ [afterCall])).1 ∧
    ("Warning: Unknown tool \x27" ++ "placeOrder" ++ "\x27 requested by Gemini.") ∈
      (processTurnP1 env0 ([⟨"getAvailableMargin", []⟩] ++ ⟨"placeOrder", []⟩ :: [afterCall])).logs ∧
    (∀ tr ∈ (processTurnP1 env0 ([⟨"getAvailableMargin", []⟩] ++ ⟨"placeOrder", []⟩ :: [afterCall])).batch,
      tr.functionName ≠ "placeOrder") ∧
    (∀ tr ∈ (processTurnP0 env0 ([⟨"getAvailableMargin", []⟩] ++ ⟨"placeOrder", []⟩ :: [afterCall])).1,
      tr.functionName ≠ "placeOrder") :=
  c5_unknown_tool_skipped env0 ⟨"placeOrder", []⟩ [⟨"getAvailableMargin", []⟩] [afterCall] rfl

/-- C6: whenever the master deadline elapses before the part_001 run
settles (including a run that never settles), the raced script is
abandoned with the master-timeout failure reporting the configured
deadline (180 seconds), and every Gateway send actually performed was
initiated strictly before the deadline fired — none after. -/
theorem c6_master_timeout (env : Env) (script : List GResp)
    (h : ∀ s, (runP1 env script).settle = some s → MASTER_TIMEOUT_MS < s) :
    (masterRace env script).outcome =
      Except.error "Master script timeout reached after 180 seconds." ∧
    ∀ t p, (t, Event.send p) ∈ (masterRace env script).performed → t < MASTER_TIMEOUT_MS := by
  have hmsg : masterMsg = "Master script timeout reached after 180 seconds." := by decide
  simp only [masterRace]
  cases hs : (runP1 env script).settle with
  | none =>
    refine ⟨by simp [hmsg], ?_⟩
    intro t p hm
    simpa using (List.mem_filter.mp hm).2
  | some s =>
    have hlt := h s hs
    dsimp only
    rw [if_neg (by omega)]
    refine ⟨by simp [hmsg], ?_⟩
    intro t p hm
    simpa using (List.mem_filter.mp hm).2

/-- Witness for C6: under `envW` the single Gemini round trip takes
1 000 000 ms, so the run settles only at tick 1 000 000, far beyond the
180 000 ms deadline. -/
theorem c6_witness :
    (masterRace envW scriptW).outcome =
      Except.error "Master script timeout reached after 180 seconds." ∧
    ∀ t p, (t, Event.send p) ∈ (masterRace envW scriptW).performed → t < MASTER_TIMEOUT_MS :=
  c6_master_timeout envW scriptW (by
    intro s hs
    have h1 : (runP1 envW scriptW).settle = some 1000000 := by decide
    rw [h1] at hs
    injection hs with h2
    subst h2
    decide)

/-- C7 counterexample: in the two-turn script `script7` under `env0`,
the part_001 driver's gateway-facing event order is prompt send, batch
send, throttle delay — there is no delay event anywhere before the batch
send, refuting the claim that the Turn Throttle delay is applied before
the batch is sent back. -/
theorem c7_counterexample :
    evs7 = [Event.send promptP1, Event.send payload7, Event.delay REQUEST_DELAY_MS] ∧
    ¬ ∃ i j : Fin evs7.length, i.1 < j.1 ∧
        evs7.get i = Event.delay REQUEST_DELAY_MS ∧ evs7.get j = Event.send payload7 := by
  constructor
  · rfl
  · decide

/-- C7 amended: the Turn Throttle delay is applied after the outcome
batch is sent back, not before: in the event trace of every part_001
run, no delay event opens the trace and every delay event is immediately
preceded by a Gateway send. -/
theorem c7_amended_throttle_after_send (env : Env) (script : List GResp) :
    ThrottleFollowsSend ((runP1 env script).events.map Prod.snd) := by
  unfold ThrottleFollowsSend
  cases script with
  | nil => simp [runP1]
  | cons r rest =>
    have ⟨h1, h2⟩ := loopP1_shape env rest r (env.gdur 0) 1
    constructor
    · intro d
      simp [runP1]
    · simp only [runP1, List.map_cons]
      cases he : (loopP1 env r rest (env.gdur 0) 1).events.map Prod.snd with
      | nil => simp [he]
      | cons e es =>
        rw [List.chain'_cons]
        refine ⟨fun _ => ⟨promptP1, rfl⟩, ?_⟩
        rw [he] at h2
        exact h2

/-- C9: a turn whose non-empty call list contains only unregistered
names produces an empty batch: the part_000 driver sends the
serialization of the empty batch ("[]") and loops; with the gateway
scripted to repeat such a turn, this goes on for any number n of turns
without ever reaching the textual-termination branch. -/
theorem c9_unknown_turns_loop (env : Env) (cs : List Call) (txt : String) (n : Nat)
    (hne : cs ≠ []) (hunk : ∀ c ∈ cs, registry env c.name = none) :
    runP0 env (List.replicate n ⟨cs, txt⟩) = ⟨List.replicate n (stringifyBatch []), none⟩ := by
  have hbatch : (processTurnP0 env cs).1 = [] := p0_batch_all_unknown env cs hunk
  obtain ⟨c0, cs0, rfl⟩ := List.exists_cons_of_ne_nil hne
  have key : ∀ m, loopP0 env ⟨c0 :: cs0, txt⟩ (List.replicate m ⟨c0 :: cs0, txt⟩) =
      ⟨List.replicate (m + 1) (stringifyBatch []), none⟩ := by
    intro m
    induction m with
    | zero =>
      rw [loopP0]
      simp [hbatch]
    | succ k ihk =>
      rw [List.replicate_succ, loopP0]
      simp only [hbatch, ihk]
      simp [List.replicate_succ]
  cases n with
  | zero => rfl
  | succ k =>
    rw [List.replicate_succ]
    show loopP0 env _ _ = _
    rw [key k]

/-- Witness for C9: three consecutive turns requesting only the unknown
tool "placeOrder" yield three "[]" sends and no termination. -/
theorem c9_witness :
    runP0 env0 (List.replicate 3 ⟨[⟨"placeOrder", []⟩], "t"⟩) =
      ⟨List.replicate 3 (stringifyBatch []), none⟩ :=
  c9_unknown_turns_loop env0 [⟨"placeOrder", []⟩] "t" 3 (by simp)
    (by intro c hc; rw [List.mem_singleton] at hc; subst hc; rfl)

/-- C1 counterexample: a turn whose call list is
[provideAnalysis(summary := "Done"), getOpenOrders].  The trader's loop
executes `provideAnalysis` like any other tool (surfacing the summary in
its log) and then still dispatches `getOpenOrders`, the invocation
appearing after it in the same turn's call list — refuting the claim
that no later invocation is executed and that the driver transitions to
a TERMINATED state at that point. -/
theorem c1_counterexample :
    (execPlan env0 [pa, afterCall]).1 =
      [TrEvent.log ("Executing step: provideAnalysis(" ++ stringifyArgs pa.args ++ ")"),
        TrEvent.exec "provideAnalysis",
        TrEvent.log "--- Gemini\x27s Final Analysis ---",
        TrEvent.log "Done",
        TrEvent.log ("Executing step: getOpenOrders(" ++ stringifyArgs afterCall.args ++ ")"),
        TrEvent.exec "getOpenOrders"] ∧
    TrEvent.exec "getOpenOrders" ∈ (execPlan env0 [pa, afterCall]).1 := by
  refine ⟨rfl, ?_⟩
  decide

/-- C1 amended: when a turn's call list contains a `provideAnalysis`
invocation, its handler surfaces the declared summary (logging it), but
the trader does not stop there: every invocation after it in the call
list is still processed, and the plan's result is that of the remaining
calls — there is no early termination. -/
theorem c1_amended_no_early_termination (env : Env) (pre post : List Call) (a : Args) (s : String)
    (hpre : (execPlan env pre).2 = Except.ok ())
    (hs : a.lookup "summary" = some s) :
    execPlan env (pre ++ ⟨"provideAnalysis", a⟩ :: post) =
      ((execPlan env pre).1 ++
        TrEvent.log ("Executing step: provideAnalysis(" ++ stringifyArgs a ++ ")") ::
        TrEvent.exec "provideAnalysis" ::
        TrEvent.log "--- Gemini\x27s Final Analysis ---" :: TrEvent.log s ::
        (execPlan env post).1,
        (execPlan env post).2) := by
  have hstep : execPlan env (⟨"provideAnalysis", a⟩ :: post) =
      (TrEvent.log ("Executing step: provideAnalysis(" ++ stringifyArgs a ++ ")") ::
        TrEvent.exec "provideAnalysis" ::
        TrEvent.log "--- Gemini\x27s Final Analysis ---" :: TrEvent.log s ::
        (execPlan env post).1,
        (execPlan env post).2) := by
    simp [execPlan, registryTrader, hs]
  rw [execPlan_append env pre (⟨"provideAnalysis", a⟩ :: post) hpre, hstep]

/-- Witness for the amended C1: getAvailableMargin, then provideAnalysis
with summary "Done", then getOpenOrders, under `env0`. -/
theorem c1_witness :
    execPlan env0 ([⟨"getAvailableMargin", []⟩] ++ ⟨"provideAnalysis", [("summary", "Done")]⟩ :: [afterCall]) =
      ((execPlan env0 [⟨"getAvailableMargin", []⟩]).1 ++
        TrEvent.log ("Executing step: provideAnalysis(" ++ stringifyArgs [("summary", "Done")] ++ ")") ::
        TrEvent.exec "provideAnalysis" ::
        TrEvent.log "--- Gemini\x27s Final Analysis ---" :: TrEvent.log "Done" ::
        (execPlan env0 [afterCall]).1,
        (execPlan env0 [afterCall]).2) :=
  c1_amended_no_early_termination env0 [⟨"getAvailableMargin", []⟩] [afterCall]
    [("summary", "Done")] "Done" rfl rfl

/-- C10: the trader variant sends exactly one Gateway message — the
prompt — whatever the script and whatever the handlers do (in
particular, every handler result is discarded: the sends do not depend
on the environment), and when every planned invocation is registered and
succeeds, the handlers are dispatched sequentially in request order. -/
theorem c10_single_request (env env2 : Env) (r : GResp) (rest : List GResp)
    (hok : ∀ c ∈ r.calls,
      ∃ h v, registryTrader env c.name = some h ∧ (h c.args).2 = Except.ok v) :
    (∀ sc : List GResp, (traderRun env sc).sends = [promptTrader]) ∧
    (traderRun env2 (r :: rest)).sends = (traderRun env (r :: rest)).sends ∧
    execNames (traderRun env (r :: rest)).events = r.calls.map Call.name := by
  have hsends : ∀ (e : Env) (sc : List GResp), (traderRun e sc).sends = [promptTrader] := by
    intro e sc
    cases sc with
    | nil => rfl
    | cons r0 rest0 =>
      cases hc : r0.calls with
      | nil => simp [traderRun, hc]
      | cons c cs =>
        cases hx : (execPlan e (c :: cs)).2 <;> simp [traderRun, hc, hx]
  refine ⟨hsends env, by rw [hsends env2, hsends env], ?_⟩
  cases hc : r.calls with
  | nil => simp [traderRun, hc, execNames]
  | cons c cs =>
    rw [hc] at hok
    have ⟨h1, h2⟩ := execPlan_all_ok env (c :: cs) hok
    simp [traderRun, hc, h2, h1]

/-- Witness for C10: the four-step plan `callsT` under `env0` (with
`envW` as the alternative environment). -/
theorem c10_witness :
    (∀ sc : List GResp, (traderRun env0 sc).sends = [promptTrader]) ∧
    (traderRun envW (⟨callsT, ""⟩ :: [])).sends = (traderRun env0 (⟨callsT, ""⟩ :: [])).sends ∧
    execNames (traderRun env0 (⟨callsT, ""⟩ :: [])).events = callsT.map Call.name :=
  c10_single_request env0 envW ⟨callsT, ""⟩ [] (by
    intro c hc
    simp only [callsT, pa, List.mem_cons, List.mem_singleton, List.not_mem_nil, or_false] at hc
    rcases hc with rfl | rfl | rfl | rfl
    · exact ⟨_, some "hist", rfl, rfl⟩
    · exact ⟨_, some "accounts", rfl, rfl⟩
    · exact ⟨_, some "positions", rfl, rfl⟩
    · exact ⟨_, none, rfl, rfl⟩)

end GeminiToolTrader
